import Mathlib

/-!
Shallow embedding of the japanese-glossary-generator core
(src/text_utils.py, src/api_client.py, src/stats.py, src/processor.py,
src/glossary_generator.py, src/templates.py), with theorems settling the
specification claims about it.

Python strings are modelled as `String` / `List Char` (Python 3 strings are
sequences of Unicode code points), machine integers as `Nat`, JSON null /
Python `None` as `Option.none`, and Python dicts as functions into `Option`.
-/

namespace JGlossary

/-! ### src/text_utils.py

`KANJI_REGEX  = re.compile(r'[一-龯𠀀-𪛟]')`          -- U+4E00..U+9FAF, U+20000..U+2A6DF
`HIRAGANA_REGEX = re.compile(r'[぀-ゟー]')`   -- U+3040..U+309F plus U+30FC
`KATAKANA_REGEX = re.compile(r'[゠-ヿー]')`   -- U+30A0..U+30FF plus U+30FC

The predicates run `fullmatch` on a one-character string, so they are pure
functions of the single code point; we define them on `Nat` code points and
wrap them for `Char`.
-/

def isHiraganaCode (n : Nat) : Bool :=
  (0x3040 ≤ n && n ≤ 0x309F) || n == 0x30FC

def isKatakanaCode (n : Nat) : Bool :=
  (0x30A0 ≤ n && n ≤ 0x30FF) || n == 0x30FC

def isKanjiCode (n : Nat) : Bool :=
  (0x4E00 ≤ n && n ≤ 0x9FAF) || (0x20000 ≤ n && n ≤ 0x2A6DF)

def is_hiragana (c : Char) : Bool := isHiraganaCode c.toNat

def is_katakana (c : Char) : Bool := isKatakanaCode c.toNat

def is_kanji (c : Char) : Bool := isKanjiCode c.toNat

def is_japanese_char (c : Char) : Bool :=
  is_hiragana c || is_katakana c || is_kanji c

/-- Python `str.isspace()` on a single code point: true exactly on
U+0009..U+000D, U+001C..U+0020, U+0085, U+00A0, U+1680, U+2000..U+200A,
U+2028, U+2029, U+202F, U+205F, U+3000 (Unicode bidi classes WS/B/S and
category Zs, as CPython implements it). -/
def pyIsSpace (c : Char) : Bool :=
  (0x9 ≤ c.toNat && c.toNat ≤ 0xD) || (0x1C ≤ c.toNat && c.toNat ≤ 0x20) ||
  c.toNat == 0x85 || c.toNat == 0xA0 || c.toNat == 0x1680 ||
  (0x2000 ≤ c.toNat && c.toNat ≤ 0x200A) || c.toNat == 0x2028 ||
  c.toNat == 0x2029 || c.toNat == 0x202F || c.toNat == 0x205F ||
  c.toNat == 0x3000

/-- The `type` field computed by `get_character_info` (text_utils.py:80-87):
an if/elif chain that tries hiragana first, then katakana, then kanji.
`categorize_characters` (text_utils.py:44-50) uses the same chain. -/
def charTypeCode (n : Nat) : String :=
  if isHiraganaCode n then "hiragana"
  else if isKatakanaCode n then "katakana"
  else if isKanjiCode n then "kanji"
  else "other"

/-- The generator expression inside `extract_unique_japanese_chars`:
`(c for c in text if is_japanese_char(c) and not c.isspace())`. -/
def japaneseChars (text : List Char) : List Char :=
  text.filter (fun c => is_japanese_char c && !pyIsSpace c)

/-- The sort key of `extract_unique_japanese_chars`: `key=text.find`, the
index of the first occurrence in the original text.  (For the characters
being sorted, which all occur in `text`, `List.indexOf` agrees with
Python `str.find`.) -/
def extLE (text : List Char) (a b : Char) : Prop :=
  text.indexOf a ≤ text.indexOf b

instance (text : List Char) : DecidableRel (extLE text) :=
  fun _ _ => Nat.decLe _ _

instance (text : List Char) : IsTotal Char (extLE text) :=
  ⟨fun _ _ => Nat.le_total _ _⟩

instance (text : List Char) : IsTrans Char (extLE text) :=
  ⟨fun _ _ _ => Nat.le_trans⟩

/-- `sorted(set(c for c in text if ...), key=text.find)`
(text_utils.py:29-32).  The Python `set` has no observable order; since
`sorted` with the `text.find` key determines the result uniquely (first
occurrence indices of distinct members of `text` are distinct), any
deduplicated enumeration of the set yields the same output, and we use
`List.dedup` followed by a sort. -/
def extract_unique_japanese_chars (text : List Char) : List Char :=
  List.insertionSort (extLE text) (japaneseChars text).dedup

end JGlossary

namespace JGlossary

/-! Helper lemmas about the extraction. -/

theorem extract_mem (text : List Char) (c : Char) :
    c ∈ extract_unique_japanese_chars text ↔
      c ∈ text ∧ is_japanese_char c = true ∧ pyIsSpace c = false := by
  unfold extract_unique_japanese_chars japaneseChars
  rw [List.mem_insertionSort, List.mem_dedup, List.mem_filter]
  simp [Bool.and_eq_true, Bool.not_eq_true']

theorem extract_nodup (text : List Char) :
    (extract_unique_japanese_chars text).Nodup :=
  ((List.perm_insertionSort (extLE text) _).symm).nodup
    (List.nodup_dedup (japaneseChars text))

theorem extract_sorted (text : List Char) :
    (extract_unique_japanese_chars text).Sorted (extLE text) :=
  List.sorted_insertionSort (extLE text) _

theorem extract_subset_text (text : List Char) :
    ∀ c ∈ extract_unique_japanese_chars text, c ∈ text :=
  fun c hc => ((extract_mem text c).mp hc).1

theorem indexOf_inj_of_mem {text : List Char} {a b : Char}
    (ha : a ∈ text) (hb : b ∈ text)
    (h : text.indexOf a = text.indexOf b) : a = b := by
  have h1 : text.indexOf a < text.length := List.indexOf_lt_length.mpr ha
  have h2 : text.indexOf b < text.length := List.indexOf_lt_length.mpr hb
  have ga : text.get ⟨text.indexOf a, h1⟩ = a := List.indexOf_get h1
  have gb : text.get ⟨text.indexOf b, h2⟩ = b := List.indexOf_get h2
  rw [← ga, ← gb]
  congr 1
  exact Fin.ext h

theorem extract_pairwise_strict (text : List Char) :
    (extract_unique_japanese_chars text).Pairwise
      (fun a b => text.indexOf a < text.indexOf b) := by
  have hs := extract_sorted text
  have hn := extract_nodup text
  have := List.Pairwise.and hs hn
  refine this.imp_of_mem ?_
  intro a b ha hb hab
  rcases hab with ⟨hle, hne⟩
  rcases Nat.lt_or_ge (text.indexOf a) (text.indexOf b) with h | h
  · exact h
  · exact absurd (indexOf_inj_of_mem (extract_subset_text text a ha)
      (extract_subset_text text b hb) (Nat.le_antisymm hle h)) hne

/-- C5: `extract_unique_japanese_chars` returns each Japanese,
non-whitespace character of the input exactly once (membership iff it
occurs in the text, and no duplicates), ordered by the index of its first
appearance in the input, with non-Japanese characters dropped silently;
in particular on "あいあう" it returns ["あ","い","う"]. -/
theorem extract_unique_spec (text : List Char) :
    (∀ c, c ∈ extract_unique_japanese_chars text ↔
        c ∈ text ∧ is_japanese_char c = true ∧ pyIsSpace c = false) ∧
    (extract_unique_japanese_chars text).Nodup ∧
    (extract_unique_japanese_chars text).Pairwise
      (fun a b => text.indexOf a < text.indexOf b) ∧
    extract_unique_japanese_chars "あいあう".toList = "あいう".toList := by
  refine ⟨extract_mem text, extract_nodup text, extract_pairwise_strict text, ?_⟩
  decide

theorem hiraKata_overlap (n : Nat) :
    (isHiraganaCode n && isKatakanaCode n) = (n == 0x30FC) := by
  have h : (isHiraganaCode n = true ∧ isKatakanaCode n = true) ↔ n = 0x30FC := by
    simp only [isHiraganaCode, isKatakanaCode, Bool.or_eq_true, Bool.and_eq_true,
      decide_eq_true_eq, beq_iff_eq]
    omega
  cases h1 : isHiraganaCode n <;> cases h2 : isKatakanaCode n <;>
    by_cases h3 : n = 0x30FC <;> simp_all

theorem hiraKanji_false (n : Nat) :
    (isHiraganaCode n && isKanjiCode n) = false := by
  have h : ¬ (isHiraganaCode n = true ∧ isKanjiCode n = true) := by
    simp only [isHiraganaCode, isKanjiCode, Bool.or_eq_true, Bool.and_eq_true,
      decide_eq_true_eq, beq_iff_eq]
    omega
  cases h1 : isHiraganaCode n <;> cases h2 : isKanjiCode n <;> simp_all

theorem kataKanji_false (n : Nat) :
    (isKatakanaCode n && isKanjiCode n) = false := by
  have h : ¬ (isKatakanaCode n = true ∧ isKanjiCode n = true) := by
    simp only [isKatakanaCode, isKanjiCode, Bool.or_eq_true, Bool.and_eq_true,
      decide_eq_true_eq, beq_iff_eq]
    omega
  cases h1 : isKatakanaCode n <;> cases h2 : isKanjiCode n <;> simp_all

/-- A kanji character satisfies neither kana predicate. -/
theorem kanji_not_kana (c : Char) (h : is_kanji c = true) :
    is_hiragana c = false ∧ is_katakana c = false := by
  unfold is_kanji at h
  unfold is_hiragana is_katakana
  constructor
  · have := hiraKanji_false c.toNat
    cases hh : isHiraganaCode c.toNat
    · rfl
    · rw [hh, h] at this
      exact absurd this (by decide)
  · have := kataKanji_false c.toNat
    cases hh : isKatakanaCode c.toNat
    · rfl
    · rw [hh, h] at this
      exact absurd this (by decide)

/-- A kana character does not satisfy the kanji predicate. -/
theorem kana_not_kanji (c : Char) (h : (is_hiragana c || is_katakana c) = true) :
    is_kanji c = false := by
  cases hk : is_kanji c
  · rfl
  · rcases Bool.or_eq_true_iff.mp h with hh | hh
    · exact absurd ((kanji_not_kana c hk).1) (by rw [hh]; exact fun hcon => Bool.noConfusion hcon)
    · exact absurd ((kanji_not_kana c hk).2) (by rw [hh]; exact fun hcon => Bool.noConfusion hcon)

/-- C6: every code point classifies into exactly one of
hiragana/katakana/kanji/other; the three predicates are pairwise mutually
exclusive except that U+30FC (the long-vowel mark) satisfies both kana
predicates, and U+30FC classifies as hiragana because hiragana is tried
first. -/
theorem classify_spec (n : Nat) :
    (charTypeCode n = "hiragana" ∨ charTypeCode n = "katakana" ∨
      charTypeCode n = "kanji" ∨ charTypeCode n = "other") ∧
    ((isHiraganaCode n && isKatakanaCode n) = (n == 0x30FC)) ∧
    ((isHiraganaCode n && isKanjiCode n) = false) ∧
    ((isKatakanaCode n && isKanjiCode n) = false) ∧
    (isHiraganaCode 0x30FC = true ∧ isKatakanaCode 0x30FC = true ∧
      charTypeCode 0x30FC = "hiragana") := by
  refine ⟨?_, hiraKata_overlap n, hiraKanji_false n, kataKanji_false n, by decide⟩
  unfold charTypeCode
  split
  · exact Or.inl rfl
  · split
    · exact Or.inr (Or.inl rfl)
    · split
      · exact Or.inr (Or.inr (Or.inl rfl))
      · exact Or.inr (Or.inr (Or.inr rfl))

/-! ### src/api_client.py — the External Lookup Gateway

`global_api_cache` is a Python dict mapping string keys to arbitrary
JSON values; we model the value space by a type parameter `V` and a
stored Python value by `Option V` (`none` models Python `None`), so that
the dict itself is `String → Option (Option V)` (outer `none` = key
absent).  The network calls `_call_romaji2kana_api_no_cache` /
`_get_kanji_info_no_cache` are modelled by fixed oracles `apiR` / `apiK`
giving the (deterministic) response for each query; a failed or null
response is `none`.  `config['cache']['cache_enabled']` is the
`cacheEnabled` parameter; the two shared counters live in the state. -/

structure GatewayState (V : Type) where
  cache : String → Option (Option V)
  cache_hits : Nat
  api_calls : Nat

/-- Python dict read `d[k]` / `k in d`, as a total lookup. -/
def dictGet {α : Type} (d : String → Option α) (k : String) : Option α := d k

/-- Python dict write `d[k] = v`. -/
def dictPut {α : Type} (d : String → Option α) (k : String) (v : α) :
    String → Option α :=
  fun k' => if k' = k then some v else d k'

/-- `_call_romaji2kana_api_direct(endpoint, text)` (api_client.py:13-27):
on a hit, bump `cache_hits` and return the cached value; on a miss, bump
`api_calls`, call the network, and store the result only when it is not
`None` and caching is enabled. -/
def callRomaji2kanaApiDirect {V : Type} (cacheEnabled : Bool)
    (apiR : String → String → Option V) (endpoint text : String)
    (s : GatewayState V) : Option V × GatewayState V :=
  let cacheKey := "romaji2kana_" ++ endpoint ++ "_" ++ text
  if cacheEnabled && (dictGet s.cache cacheKey).isSome then
    ((dictGet s.cache cacheKey).join,
      { s with cache_hits := s.cache_hits + 1 })
  else
    match apiR endpoint text with
    | some v =>
        if cacheEnabled then
          (some v, { s with api_calls := s.api_calls + 1,
                            cache := dictPut s.cache cacheKey (some v) })
        else (some v, { s with api_calls := s.api_calls + 1 })
    | none => (none, { s with api_calls := s.api_calls + 1 })

/-- `get_kanji_info(kanji_char)` (api_client.py:49-63): identical
hit/miss/store structure with cache key `"kanji_" + kanji_char`. -/
def get_kanji_info {V : Type} (cacheEnabled : Bool)
    (apiK : String → Option V) (kanjiChar : String)
    (s : GatewayState V) : Option V × GatewayState V :=
  let cacheKey := "kanji_" ++ kanjiChar
  if cacheEnabled && (dictGet s.cache cacheKey).isSome then
    ((dictGet s.cache cacheKey).join,
      { s with cache_hits := s.cache_hits + 1 })
  else
    match apiK kanjiChar with
    | some v =>
        if cacheEnabled then
          (some v, { s with api_calls := s.api_calls + 1,
                            cache := dictPut s.cache cacheKey (some v) })
        else (some v, { s with api_calls := s.api_calls + 1 })
    | none => (none, { s with api_calls := s.api_calls + 1 })

/-- One lookup through the Gateway: either of the two cached entry
points. -/
inductive Query where
  | romaji (endpoint text : String)
  | kanji (ch : String)

def gatewayStep {V : Type} (cacheEnabled : Bool)
    (apiR : String → String → Option V) (apiK : String → Option V)
    (s : GatewayState V) (q : Query) : GatewayState V :=
  match q with
  | .romaji e t => (callRomaji2kanaApiDirect cacheEnabled apiR e t s).2
  | .kanji c => (get_kanji_info cacheEnabled apiK c s).2

/-- A sequence of lookups through the Gateway. -/
def runLookups {V : Type} (cacheEnabled : Bool)
    (apiR : String → String → Option V) (apiK : String → Option V)
    (qs : List Query) (s : GatewayState V) : GatewayState V :=
  qs.foldl (gatewayStep cacheEnabled apiR apiK) s

/-- No stored value of the cache dict is Python `None`. -/
def noNullStored {V : Type} (s : GatewayState V) : Prop :=
  ∀ k pv, s.cache k = some pv → pv ≠ none

end JGlossary

namespace JGlossary

theorem runLookups_cons {V : Type} (en : Bool)
    (aR : String → String → Option V) (aK : String → Option V)
    (q : Query) (qs : List Query) (s : GatewayState V) :
    runLookups en aR aK (q :: qs) s =
      runLookups en aR aK qs (gatewayStep en aR aK s q) := rfl

/-- Each single lookup bumps exactly one of the two counters by one. -/
theorem gatewayStep_counters {V : Type} (en : Bool)
    (aR : String → String → Option V) (aK : String → Option V)
    (s : GatewayState V) (q : Query) :
    ((gatewayStep en aR aK s q).cache_hits = s.cache_hits + 1 ∧
      (gatewayStep en aR aK s q).api_calls = s.api_calls) ∨
    ((gatewayStep en aR aK s q).cache_hits = s.cache_hits ∧
      (gatewayStep en aR aK s q).api_calls = s.api_calls + 1) := by
  cases q with
  | romaji e t =>
    dsimp only [gatewayStep, callRomaji2kanaApiDirect]
    split
    · exact Or.inl ⟨rfl, rfl⟩
    · split
      · split
        · exact Or.inr ⟨rfl, rfl⟩
        · exact Or.inr ⟨rfl, rfl⟩
      · exact Or.inr ⟨rfl, rfl⟩
  | kanji c =>
    dsimp only [gatewayStep, get_kanji_info]
    split
    · exact Or.inl ⟨rfl, rfl⟩
    · split
      · split
        · exact Or.inr ⟨rfl, rfl⟩
        · exact Or.inr ⟨rfl, rfl⟩
      · exact Or.inr ⟨rfl, rfl⟩

theorem runLookups_counter_sum {V : Type} (en : Bool)
    (aR : String → String → Option V) (aK : String → Option V)
    (qs : List Query) (s : GatewayState V) :
    (runLookups en aR aK qs s).cache_hits + (runLookups en aR aK qs s).api_calls =
      s.cache_hits + s.api_calls + qs.length := by
  induction qs generalizing s with
  | nil => rfl
  | cons q qs ih =>
    rw [runLookups_cons, ih]
    rcases gatewayStep_counters en aR aK s q with ⟨h1, h2⟩ | ⟨h1, h2⟩ <;>
      rw [h1, h2] <;> simp only [List.length_cons] <;> omega

/-- With caching enabled, a missed romaji lookup whose API response is
non-null stores the result, so an immediate second lookup of the same
key is a hit: one `api_calls` bump and one `cache_hits` bump in total. -/
theorem romaji_double_fetch {V : Type}
    (aR : String → String → Option V) (aK : String → Option V)
    (e t : String) (v : V) (s : GatewayState V)
    (happ : aR e t = some v)
    (hmiss : s.cache ("romaji2kana_" ++ e ++ "_" ++ t) = none) :
    (runLookups true aR aK [Query.romaji e t, Query.romaji e t] s).api_calls =
      s.api_calls + 1 ∧
    (runLookups true aR aK [Query.romaji e t, Query.romaji e t] s).cache_hits =
      s.cache_hits + 1 := by
  have h1 : gatewayStep true aR aK s (Query.romaji e t) =
      { s with api_calls := s.api_calls + 1,
               cache := dictPut s.cache ("romaji2kana_" ++ e ++ "_" ++ t) (some v) } := by
    dsimp only [gatewayStep, callRomaji2kanaApiDirect, dictGet]
    rw [hmiss, happ]
    simp
  have h2 : ∀ s' : GatewayState V,
      s'.cache ("romaji2kana_" ++ e ++ "_" ++ t) = some (some v) →
      gatewayStep true aR aK s' (Query.romaji e t) =
        { s' with cache_hits := s'.cache_hits + 1 } := by
    intro s' hhit
    dsimp only [gatewayStep, callRomaji2kanaApiDirect, dictGet]
    rw [hhit]
    simp
  have hstored :
      ({ s with api_calls := s.api_calls + 1,
                cache := dictPut s.cache ("romaji2kana_" ++ e ++ "_" ++ t)
                  (some v) } : GatewayState V).cache
        ("romaji2kana_" ++ e ++ "_" ++ t) = some (some v) := by
    dsimp only [dictPut]
    rw [if_pos rfl]
  have hrun : runLookups true aR aK [Query.romaji e t, Query.romaji e t] s =
      gatewayStep true aR aK (gatewayStep true aR aK s (Query.romaji e t))
        (Query.romaji e t) := rfl
  rw [hrun, h1, h2 _ hstored]
  exact ⟨rfl, rfl⟩

/-- Same two-fetch behaviour for `get_kanji_info`. -/
theorem kanji_double_fetch {V : Type}
    (aR : String → String → Option V) (aK : String → Option V)
    (c : String) (w : V) (s : GatewayState V)
    (happ : aK c = some w)
    (hmiss : s.cache ("kanji_" ++ c) = none) :
    (runLookups true aR aK [Query.kanji c, Query.kanji c] s).api_calls =
      s.api_calls + 1 ∧
    (runLookups true aR aK [Query.kanji c, Query.kanji c] s).cache_hits =
      s.cache_hits + 1 := by
  have h1 : gatewayStep true aR aK s (Query.kanji c) =
      { s with api_calls := s.api_calls + 1,
               cache := dictPut s.cache ("kanji_" ++ c) (some w) } := by
    dsimp only [gatewayStep, get_kanji_info, dictGet]
    rw [hmiss, happ]
    simp
  have h2 : ∀ s' : GatewayState V,
      s'.cache ("kanji_" ++ c) = some (some w) →
      gatewayStep true aR aK s' (Query.kanji c) =
        { s' with cache_hits := s'.cache_hits + 1 } := by
    intro s' hhit
    dsimp only [gatewayStep, get_kanji_info, dictGet]
    rw [hhit]
    simp
  have hstored :
      ({ s with api_calls := s.api_calls + 1,
                cache := dictPut s.cache ("kanji_" ++ c) (some w) } :
        GatewayState V).cache ("kanji_" ++ c) = some (some w) := by
    dsimp only [dictPut]
    rw [if_pos rfl]
  have hrun : runLookups true aR aK [Query.kanji c, Query.kanji c] s =
      gatewayStep true aR aK (gatewayStep true aR aK s (Query.kanji c))
        (Query.kanji c) := rfl
  rw [hrun, h1, h2 _ hstored]
  exact ⟨rfl, rfl⟩

theorem noNullStored_step {V : Type} (en : Bool)
    (aR : String → String → Option V) (aK : String → Option V)
    (s : GatewayState V) (q : Query)
    (hs : noNullStored s) : noNullStored (gatewayStep en aR aK s q) := by
  cases q with
  | romaji e t =>
    dsimp only [gatewayStep, callRomaji2kanaApiDirect]
    split
    · exact hs
    · split
      · split
        · intro k pv h
          dsimp only [dictPut] at h
          by_cases hk : k = "romaji2kana_" ++ e ++ "_" ++ t
          · rw [if_pos hk] at h
            cases h
            exact fun hcon => Option.noConfusion hcon
          · rw [if_neg hk] at h
            exact hs k pv h
        · exact hs
      · exact hs
  | kanji c =>
    dsimp only [gatewayStep, get_kanji_info]
    split
    · exact hs
    · split
      · split
        · intro k pv h
          dsimp only [dictPut] at h
          by_cases hk : k = "kanji_" ++ c
          · rw [if_pos hk] at h
            cases h
            exact fun hcon => Option.noConfusion hcon
          · rw [if_neg hk] at h
            exact hs k pv h
        · exact hs
      · exact hs

theorem noNullStored_runLookups {V : Type} (en : Bool)
    (aR : String → String → Option V) (aK : String → Option V)
    (qs : List Query) (s : GatewayState V)
    (hs : noNullStored s) : noNullStored (runLookups en aR aK qs s) := by
  induction qs generalizing s with
  | nil => exact hs
  | cons q qs ih =>
    rw [runLookups_cons]
    exact ih _ (noNullStored_step en aR aK s q hs)

/-- C3 counterexample: with caching enabled and an empty cache, fetching
the same key twice when the API responds null increments `api_calls`
twice, not once (null results are never cached, api_client.py:24-25). -/
theorem gateway_double_fetch_counterexample :
    (runLookups true (fun _ _ => (none : Option Nat)) (fun _ => none)
        [Query.romaji "/v1/to/romaji" "あ", Query.romaji "/v1/to/romaji" "あ"]
        ⟨fun _ => none, 0, 0⟩).api_calls = 2 ∧ (2 : Nat) ≠ 1 :=
  ⟨rfl, by decide⟩

/-- C3 (amended): every lookup through the Gateway increments exactly one
of `cache_hits` / `api_calls`, so over any sequence of lookups
`cache_hits + api_calls` equals the number of lookup attempts; and a key
fetched twice with caching enabled yields exactly one `api_calls`
increment provided the first fetch's API response is non-null (a null
response is not cached, so the second fetch calls the API again). -/
theorem gateway_accounting_spec {V : Type} (en : Bool)
    (aR : String → String → Option V) (aK : String → Option V)
    (qs : List Query) (s : GatewayState V) (e t c : String) (v w : V) :
    (∀ (s' : GatewayState V) (q : Query),
      ((gatewayStep en aR aK s' q).cache_hits = s'.cache_hits + 1 ∧
        (gatewayStep en aR aK s' q).api_calls = s'.api_calls) ∨
      ((gatewayStep en aR aK s' q).cache_hits = s'.cache_hits ∧
        (gatewayStep en aR aK s' q).api_calls = s'.api_calls + 1)) ∧
    ((runLookups en aR aK qs s).cache_hits + (runLookups en aR aK qs s).api_calls =
      s.cache_hits + s.api_calls + qs.length) ∧
    (aR e t = some v → s.cache ("romaji2kana_" ++ e ++ "_" ++ t) = none →
      (runLookups true aR aK [Query.romaji e t, Query.romaji e t] s).api_calls =
        s.api_calls + 1) ∧
    (aK c = some w → s.cache ("kanji_" ++ c) = none →
      (runLookups true aR aK [Query.kanji c, Query.kanji c] s).api_calls =
        s.api_calls + 1) :=
  ⟨gatewayStep_counters en aR aK,
   runLookups_counter_sum en aR aK qs s,
   fun happ hmiss => (romaji_double_fetch aR aK e t v s happ hmiss).1,
   fun happ hmiss => (kanji_double_fetch aR aK c w s happ hmiss).1⟩

/-- Witness for C3's amended theorem at concrete inputs. -/
theorem gateway_accounting_witness :
    (runLookups true (fun _ t => some ("r" ++ t)) (fun _ => some "info")
        [Query.romaji "/v1/to/romaji" "み", Query.romaji "/v1/to/romaji" "み"]
        ⟨fun _ => none, 0, 0⟩).api_calls = 0 + 1 :=
  (gateway_accounting_spec true (fun _ t => some ("r" ++ t)) (fun _ => some "info")
      [] ⟨fun _ => none, 0, 0⟩ "/v1/to/romaji" "み" "水" ("rみ") "info").2.2.1
    rfl rfl

/-- C7: the cache obeys the put/get law, and no Python `None` is ever
stored: starting from a cache with no null entries, any sequence of
Gateway lookups preserves that invariant (api_client.py:24-25, 60-61
store only under `result is not None`). -/
theorem cache_put_get_spec {V : Type} (d : String → Option V) (k : String) (v : V)
    (en : Bool) (aR : String → String → Option V) (aK : String → Option V)
    (qs : List Query) (s : GatewayState V) :
    dictGet (dictPut d k v) k = some v ∧
    (noNullStored s → noNullStored (runLookups en aR aK qs s)) :=
  ⟨by dsimp only [dictGet, dictPut]; rw [if_pos rfl],
   noNullStored_runLookups en aR aK qs s⟩

/-- Witness for C7 at concrete inputs. -/
theorem cache_put_get_witness :
    dictGet (dictPut (fun _ => (none : Option Nat)) "kanji_水" 7) "kanji_水" = some 7 ∧
    noNullStored (runLookups true (fun _ _ => some 3) (fun _ => (none : Option Nat))
      [Query.romaji "/v1/to/romaji" "み", Query.kanji "水"] ⟨fun _ => none, 0, 0⟩) :=
  ⟨(cache_put_get_spec (fun _ => (none : Option Nat)) "kanji_水" 7 true
      (fun _ _ => some 3) (fun _ => none)
      [Query.romaji "/v1/to/romaji" "み", Query.kanji "水"] ⟨fun _ => none, 0, 0⟩).1,
   (cache_put_get_spec (fun _ => (none : Option Nat)) "kanji_水" 7 true
      (fun _ _ => some 3) (fun _ => none)
      [Query.romaji "/v1/to/romaji" "み", Query.kanji "水"] ⟨fun _ => none, 0, 0⟩).2
     (fun _ _ h => Option.noConfusion h)⟩

/-! ### src/stats.py and src/processor.py — Progress Tracker and Batch
Orchestrator

The five job counters of `global_stats`.  Each `increment_*` function in
stats.py bumps exactly one counter by one; we model a job as the trace of
increment calls the orchestrator and its tasks perform, in program order,
and the counter state after any prefix of that trace. -/

structure Stats where
  processed : Nat
  updated : Nat
  unchanged : Nat
  empty : Nat
  error : Nat
deriving DecidableEq

def initialStats : Stats := ⟨0, 0, 0, 0, 0⟩

/-- One call to one of `increment_processed` / `increment_updated` /
`increment_unchanged` / `increment_empty` / `increment_error`
(stats.py:60-79). -/
inductive Ev where
  | processed
  | updated
  | unchanged
  | empty
  | error
deriving DecidableEq

def applyEv (s : Stats) (e : Ev) : Stats :=
  match e with
  | .processed => { s with processed := s.processed + 1 }
  | .updated => { s with updated := s.updated + 1 }
  | .unchanged => { s with unchanged := s.unchanged + 1 }
  | .empty => { s with empty := s.empty + 1 }
  | .error => { s with error := s.error + 1 }

/-- The outcome of `_process_note_task` for one note (processor.py:36-63),
plus, for an updated note, whether the later `note.flush()` in the save
loop succeeds (processor.py:108-115). -/
inductive Outcome where
  | empty
  | unchanged
  | taskError
  | updated (saveOk : Bool)
deriving DecidableEq

/-- The increment a task itself performs, while running concurrently
inside the batch: `increment_empty` (processor.py:47),
`increment_unchanged` (processor.py:57), `increment_error`
(processor.py:61); an "Updated" task increments nothing. -/
def taskEv : Outcome → Option Ev
  | .empty => some .empty
  | .unchanged => some .unchanged
  | .taskError => some .error
  | .updated _ => none

/-- The increments the sequential save loop performs for one note
(processor.py:106-117): `increment_updated` on a successful flush,
`increment_error` on a failed flush, then `increment_processed` for
every note of the batch. -/
def saveEvs : Outcome → List Ev
  | .empty => [.processed]
  | .unchanged => [.processed]
  | .taskError => [.processed]
  | .updated true => [.updated, .processed]
  | .updated false => [.error, .processed]

/-- The increment trace of one batch: first the task-phase increments
(in task completion order; we use batch order, one reachable schedule),
then the save-loop increments in batch order. -/
def batchTrace (b : List Outcome) : List Ev :=
  b.filterMap taskEv ++ b.flatMap saveEvs

/-- The increment trace of a whole job (batches strictly sequential). -/
def jobTrace (bs : List (List Outcome)) : List Ev :=
  bs.flatMap batchTrace

def statsAfter (tr : List Ev) : Stats :=
  tr.foldl applyEv initialStats

end JGlossary

namespace JGlossary

theorem foldl_applyEv_count (tr : List Ev) (s : Stats) :
    ((tr.foldl applyEv s).processed = s.processed + tr.count Ev.processed) ∧
    ((tr.foldl applyEv s).updated = s.updated + tr.count Ev.updated) ∧
    ((tr.foldl applyEv s).unchanged = s.unchanged + tr.count Ev.unchanged) ∧
    ((tr.foldl applyEv s).empty = s.empty + tr.count Ev.empty) ∧
    ((tr.foldl applyEv s).error = s.error + tr.count Ev.error) := by
  induction tr generalizing s with
  | nil => simp
  | cons e tr ih =>
    obtain ⟨ih1, ih2, ih3, ih4, ih5⟩ := ih (applyEv s e)
    simp only [List.foldl_cons]
    refine ⟨?_, ?_, ?_, ?_, ?_⟩
    · rw [ih1]; cases e <;> (simp [applyEv, List.count_cons]; try omega)
    · rw [ih2]; cases e <;> (simp [applyEv, List.count_cons]; try omega)
    · rw [ih3]; cases e <;> (simp [applyEv, List.count_cons]; try omega)
    · rw [ih4]; cases e <;> (simp [applyEv, List.count_cons]; try omega)
    · rw [ih5]; cases e <;> (simp [applyEv, List.count_cons]; try omega)

theorem batchTrace_counts (b : List Outcome) :
    ((batchTrace b).count Ev.processed = b.length) ∧
    ((batchTrace b).count Ev.updated + (batchTrace b).count Ev.unchanged +
      (batchTrace b).count Ev.empty + (batchTrace b).count Ev.error = b.length) := by
  induction b with
  | nil => decide
  | cons o b ih =>
    obtain ⟨ih1, ih2⟩ := ih
    unfold batchTrace at *
    rcases o with _ | _ | _ | ok
    · simp [List.filterMap_cons, List.flatMap_cons, taskEv, saveEvs,
        List.count_append, List.count_cons] at ih1 ih2 ⊢
      omega
    · simp [List.filterMap_cons, List.flatMap_cons, taskEv, saveEvs,
        List.count_append, List.count_cons] at ih1 ih2 ⊢
      omega
    · simp [List.filterMap_cons, List.flatMap_cons, taskEv, saveEvs,
        List.count_append, List.count_cons] at ih1 ih2 ⊢
      omega
    · cases ok <;>
      · simp [List.filterMap_cons, List.flatMap_cons, taskEv, saveEvs,
          List.count_append, List.count_cons] at ih1 ih2 ⊢
        omega

/-- `updated + unchanged + empty + error = processed`. -/
def balanced (s : Stats) : Prop :=
  s.updated + s.unchanged + s.empty + s.error = s.processed

theorem jobTrace_counts (bs : List (List Outcome)) :
    ((jobTrace bs).count Ev.processed =
      (jobTrace bs).count Ev.updated + (jobTrace bs).count Ev.unchanged +
      (jobTrace bs).count Ev.empty + (jobTrace bs).count Ev.error) := by
  induction bs with
  | nil => decide
  | cons b bs ih =>
    unfold jobTrace at *
    obtain ⟨h1, h2⟩ := batchTrace_counts b
    simp only [List.flatMap_cons, List.count_append]
    omega

/-- C2 counterexample: in the job consisting of one batch holding one
blank-source note, the state just after the task's `increment_empty`
(processor.py:47) and before the save loop's `increment_processed`
(processor.py:117) has `updated+unchanged+empty+error = 1` but
`processed = 0`: the balance does not hold at every point of the job. -/
theorem stats_balance_counterexample :
    ((statsAfter ((jobTrace [[Outcome.empty]]).take 1)).updated +
      (statsAfter ((jobTrace [[Outcome.empty]]).take 1)).unchanged +
      (statsAfter ((jobTrace [[Outcome.empty]]).take 1)).empty +
      (statsAfter ((jobTrace [[Outcome.empty]]).take 1)).error = 1) ∧
    ((statsAfter ((jobTrace [[Outcome.empty]]).take 1)).processed = 0) ∧
    (1 : Nat) ≠ 0 := by
  decide

/-- C2 (amended): all five counters are monotonically non-decreasing
along any trace of increment events within a job, and the balance
`updated + unchanged + empty + error = processed` holds at every batch
boundary — after the save loop of each completed batch, hence also at
job end — though not at every instant inside a batch, because the
task-phase increments of empty/unchanged/error precede the saving
loop's `increment_processed` calls. -/
theorem stats_monotone_and_batch_balance (s : Stats) (tr : List Ev)
    (bs : List (List Outcome)) (k : Nat) :
    (s.processed ≤ (tr.foldl applyEv s).processed ∧
      s.updated ≤ (tr.foldl applyEv s).updated ∧
      s.unchanged ≤ (tr.foldl applyEv s).unchanged ∧
      s.empty ≤ (tr.foldl applyEv s).empty ∧
      s.error ≤ (tr.foldl applyEv s).error) ∧
    balanced (statsAfter (jobTrace (bs.take k))) := by
  constructor
  · obtain ⟨h1, h2, h3, h4, h5⟩ := foldl_applyEv_count tr s
    rw [h1, h2, h3, h4, h5]
    exact ⟨Nat.le_add_right _ _, Nat.le_add_right _ _, Nat.le_add_right _ _,
      Nat.le_add_right _ _, Nat.le_add_right _ _⟩
  · obtain ⟨h1, h2, h3, h4, h5⟩ := foldl_applyEv_count (jobTrace (bs.take k)) initialStats
    have hc := jobTrace_counts (bs.take k)
    unfold balanced statsAfter
    rw [h1, h2, h3, h4, h5]
    simp only [initialStats]
    omega

/-! Cancellation (processor.py:88-124, stats.py:81-87).  The batch loop
checks `is_processing_cancelled()` once, at the top of each iteration
(processor.py:90) — between batches, never inside one — and `break`s when
it reads true.  Within a batch all updated notes are flushed
(processor.py:106-117); flushed writes are never undone.  `cancel i` is
the flag value the check before batch `i` reads (the flag is set
asynchronously by `cancel_processing`); a batch is modelled together
with the list of writes it commits. -/

def runCancellable {W : Type} (cancel : Nat → Bool) :
    Nat → List (List W) → List W → List W
  | _, [], acc => acc
  | i, b :: bs, acc =>
      if cancel i then acc else runCancellable cancel (i + 1) bs (acc ++ b)

/-- The writes committed by a whole (possibly cancelled) job. -/
def appliedWrites {W : Type} (cancel : Nat → Bool) (batches : List (List W)) :
    List W :=
  runCancellable cancel 0 batches []

/-- How many batches start: the length of the longest prefix of batch
indices at which the cancellation check reads false. -/
def cancelCutoff (cancel : Nat → Bool) : Nat → Nat → Nat
  | _, 0 => 0
  | i, n + 1 =>
      if cancel i then 0 else cancelCutoff cancel (i + 1) n + 1

end JGlossary

namespace JGlossary

theorem runCancellable_go {W : Type} (cancel : Nat → Bool) :
    ∀ (bs : List (List W)) (i : Nat) (acc : List W),
      runCancellable cancel i bs acc =
        acc ++ (bs.take (cancelCutoff cancel i bs.length)).flatten := by
  intro bs
  induction bs with
  | nil => intro i acc; simp [runCancellable, cancelCutoff]
  | cons b bs ih =>
    intro i acc
    show (if cancel i then acc else runCancellable cancel (i + 1) bs (acc ++ b)) = _
    by_cases h : cancel i = true
    · rw [if_pos h]
      simp [cancelCutoff, h]
    · rw [if_neg h, ih (i + 1) (acc ++ b)]
      have hc : cancelCutoff cancel i (b :: bs).length =
          cancelCutoff cancel (i + 1) bs.length + 1 := by
        show (if cancel i then 0 else cancelCutoff cancel (i + 1) bs.length + 1) = _
        rw [if_neg h]
      rw [hc]
      simp [List.take_cons, List.flatten, List.append_assoc]

theorem cancelCutoff_le (cancel : Nat → Bool) :
    ∀ (n i : Nat), cancelCutoff cancel i n ≤ n := by
  intro n
  induction n with
  | zero => intro i; exact Nat.le_refl 0
  | succ n ih =>
    intro i
    show (if cancel i then 0 else cancelCutoff cancel (i + 1) n + 1) ≤ n + 1
    by_cases h : cancel i = true
    · rw [if_pos h]; exact Nat.zero_le _
    · rw [if_neg h]; exact Nat.succ_le_succ (ih (i + 1))

theorem cancelCutoff_false (cancel : Nat → Bool) :
    ∀ (n i j : Nat), j < cancelCutoff cancel i n → cancel (i + j) = false := by
  intro n
  induction n with
  | zero => intro i j h; exact absurd h (Nat.not_lt_zero j)
  | succ n ih =>
    intro i j h
    have hif : cancelCutoff cancel i (n + 1) =
        if cancel i then 0 else cancelCutoff cancel (i + 1) n + 1 := rfl
    by_cases hc : cancel i = true
    · rw [hif, if_pos hc] at h
      exact absurd h (Nat.not_lt_zero j)
    · rw [hif, if_neg hc] at h
      cases j with
      | zero => simpa using Bool.eq_false_iff.mpr hc
      | succ j =>
        have : j < cancelCutoff cancel (i + 1) n := Nat.lt_of_succ_lt_succ h
        have := ih (i + 1) j this
        have harith : i + (j + 1) = i + 1 + j := by omega
        rw [harith]
        exact this

theorem cancelCutoff_stop (cancel : Nat → Bool) :
    ∀ (n i : Nat), cancelCutoff cancel i n < n →
      cancel (i + cancelCutoff cancel i n) = true := by
  intro n
  induction n with
  | zero => intro i h; exact absurd h (Nat.not_lt_zero _)
  | succ n ih =>
    intro i h
    have hif : cancelCutoff cancel i (n + 1) =
        if cancel i then 0 else cancelCutoff cancel (i + 1) n + 1 := rfl
    by_cases hc : cancel i = true
    · rw [hif, if_pos hc]
      simpa using hc
    · rw [hif, if_neg hc]
      rw [hif, if_neg hc] at h
      have hlt : cancelCutoff cancel (i + 1) n < n := Nat.lt_of_succ_lt_succ h
      have := ih (i + 1) hlt
      have harith : i + (cancelCutoff cancel (i + 1) n + 1) =
          i + 1 + cancelCutoff cancel (i + 1) n := by omega
      rw [harith]
      exact this

/-- C8: the cancellation flag is read only at the checkpoints between
batches (a batch, once started, runs to completion, mirroring the single
check at processor.py:90); the batches that run are exactly the longest
prefix at whose checkpoints the flag read false — so no further batch
starts once the flag is observed set — and the final committed writes
are exactly the writes of those completed batches, none undone. -/
theorem cancellation_spec {W : Type} (cancel : Nat → Bool)
    (batches : List (List W)) :
    appliedWrites cancel batches =
      (batches.take (cancelCutoff cancel 0 batches.length)).flatten ∧
    (∀ j, j < cancelCutoff cancel 0 batches.length → cancel j = false) ∧
    (cancelCutoff cancel 0 batches.length < batches.length →
      cancel (cancelCutoff cancel 0 batches.length) = true) := by
  refine ⟨?_, ?_, ?_⟩
  · rw [appliedWrites, runCancellable_go cancel batches 0 []]
    simp
  · intro j hj
    have := cancelCutoff_false cancel batches.length 0 j hj
    simpa using this
  · intro h
    have := cancelCutoff_stop cancel batches.length 0 h
    simpa using this

/-- Witness for C8 at a concrete job: three one-write batches, the flag
set from index 2 on; the first two batches commit, the third never
starts. -/
theorem cancellation_witness :
    appliedWrites (fun i => decide (2 ≤ i)) [[10], [20], [30]] = [10, 20] ∧
    (fun i => decide (2 ≤ i)) 1 = false ∧
    (fun i => decide (2 ≤ i))
      (cancelCutoff (fun i => decide (2 ≤ i)) 0 3) = true :=
  ⟨((cancellation_spec (fun i => decide (2 ≤ i)) [[10], [20], [30]]).1).trans
      (by decide),
   (cancellation_spec (fun i => decide (2 ≤ i)) [[10], [20], [30]]).2.1 1
      (by decide),
   (cancellation_spec (fun i => decide (2 ≤ i)) [[10], [20], [30]]).2.2
      (by decide)⟩

/-! `get_progress_percentage` (stats.py:89-93).  Python's true division
on the counter ints is modelled exactly in `ℚ`; the claim is about the
guard, not float rounding. -/

structure ProgressState where
  total_notes : Nat
  processed_notes : Nat

def get_progress_percentage (s : ProgressState) : ℚ :=
  if 0 < s.total_notes then
    ((s.processed_notes : ℚ) / (s.total_notes : ℚ)) * 100
  else 0

/-- C9: `get_progress_percentage` never divides by zero — with
`total_notes = 0` it returns 0, and otherwise it returns
`processed_notes / total_notes * 100`. -/
theorem get_progress_percentage_spec (s : ProgressState) :
    (s.total_notes = 0 → get_progress_percentage s = 0) ∧
    (s.total_notes ≠ 0 → get_progress_percentage s =
      ((s.processed_notes : ℚ) / (s.total_notes : ℚ)) * 100) := by
  constructor
  · intro h
    rw [get_progress_percentage, if_neg]
    omega
  · intro h
    rw [get_progress_percentage, if_pos (Nat.pos_of_ne_zero h)]

/-- Witness for C9 at concrete states. -/
theorem get_progress_percentage_witness :
    get_progress_percentage ⟨0, 5⟩ = 0 ∧
    get_progress_percentage ⟨4, 2⟩ = (((2 : Nat) : ℚ) / ((4 : Nat) : ℚ)) * 100 :=
  ⟨(get_progress_percentage_spec ⟨0, 5⟩).1 rfl,
   (get_progress_percentage_spec ⟨4, 2⟩).2 (by decide)⟩

end JGlossary





namespace JGlossary

/-! ### src/templates.py and src/glossary_generator.py — Glossary Assembler

Python `str.format` on the literal templates returned by
`get_glossary_templates()` is pure substitution, modelled by string
concatenation. -/

def kana_entry_t (kana romaji : String) : String :=
  "<li><span>" ++ kana ++ "</span>: <span>" ++ romaji ++ "</span></li>"

def kanji_reading_t (rtype reading romaji : String) : String :=
  "<li><strong>" ++ rtype ++ ":</strong> " ++ reading ++
    " <span>(" ++ romaji ++ ")</span></li>"

def kanji_reading_no_romaji_t (rtype reading : String) : String :=
  "<li><strong>" ++ rtype ++ ":</strong> " ++ reading ++ "</li>"

def kanji_entry_t (kanji readings_html meanings_html : String) : String :=
  "<table>\n<tr>\n<th>Kanji</th>\n<td>" ++ kanji ++
  "</td>\n</tr>\n<tr>\n<th>Readings</th>\n<td>\n<ul>\n" ++ readings_html ++
  "\n</ul>\n</td>\n</tr>\n<tr>\n<th>Meanings</th>\n<td>" ++ meanings_html ++
  "</td>\n</tr>\n</table>"

def hiragana_section_t (entries : String) : String :=
  "<h3>Hiragana</h3><ul>" ++ entries ++ "</ul>"

def katakana_section_t (entries : String) : String :=
  "<h3>Katakana</h3><ul>" ++ entries ++ "</ul>"

def kanji_section_t (entries : String) : String :=
  "<h3>Kanji</h3>" ++ entries

/-- The `config['general']` flags read by the Assembler. -/
structure GenConfig where
  include_hiragana : Bool
  include_katakana : Bool
  include_kanji : Bool
  include_romaji : Bool
  include_kanji_meanings : Bool
deriving DecidableEq

/-- The JSON object returned by the kanji dictionary service.
`kun_readings`/`on_readings` model `kanji_info.get(key, [])` (a missing
key is the empty list); `meanings = none` models a missing `meanings`
key (the `'meanings' not in kanji_info` test at glossary_generator.py:113),
`some ms` a present one.  A Python-`None` or empty (falsy) response is
modelled by `Option.none` at the oracle: both behave identically at every
use site (glossary_generator.py:58, 89, 113). -/
structure KanjiInfo where
  kun_readings : List String
  on_readings : List String
  meanings : Option (List String)
deriving DecidableEq

/-- One dict appended to `reading_results[kanji_char]`
(glossary_generator.py:74-78).  The source field `type` (the string
"Kun" or "On") is named `rtype` here. -/
structure ReadingData where
  reading : String
  rtype : String
  romaji : Option String
deriving DecidableEq

/-- The Python sort key of `_process_kanji_character`:
`key=lambda x: (x['type'], x['reading'])`, comparing the pair
lexicographically with string order. -/
def keyLE (p q : String × String) : Prop :=
  p.1 < q.1 ∨ (p.1 = q.1 ∧ p.2 ≤ q.2)

instance : DecidableRel keyLE :=
  fun p q => by unfold keyLE; infer_instance

instance : IsTrans (String × String) keyLE := by
  constructor
  intro a b c hab hbc
  rcases hab with h1 | ⟨h1, h2⟩ <;> rcases hbc with h3 | ⟨h3, h4⟩
  · exact Or.inl (lt_trans h1 h3)
  · exact Or.inl (by rw [← h3]; exact h1)
  · exact Or.inl (by rw [h1]; exact h3)
  · exact Or.inr ⟨h1.trans h3, h2.trans h4⟩

instance : IsTotal (String × String) keyLE := by
  constructor
  intro a b
  rcases lt_trichotomy a.1 b.1 with h | h | h
  · exact Or.inl (Or.inl h)
  · rcases le_total a.2 b.2 with h2 | h2
    · exact Or.inl (Or.inr ⟨h, h2⟩)
    · exact Or.inr (Or.inr ⟨h.symm, h2⟩)
  · exact Or.inr (Or.inl h)

instance : IsAntisymm (String × String) keyLE := by
  constructor
  intro a b hab hba
  rcases hab with h1 | ⟨h1, h2⟩ <;> rcases hba with h3 | ⟨h3, h4⟩
  · exact absurd h3 (lt_asymm h1)
  · rw [h3] at h1
    exact absurd h1 (lt_irrefl _)
  · rw [h1] at h3
    exact absurd h3 (lt_irrefl _)
  · have : a.2 = b.2 := le_antisymm h2 h4
    rcases a with ⟨a1, a2⟩
    rcases b with ⟨b1, b2⟩
    simp only at h1 this
    rw [h1, this]

/-- The ordering actually applied to `reading_results` records, the
pullback of `keyLE` along the sort key. -/
def rdLE (x y : ReadingData) : Prop :=
  keyLE (x.rtype, x.reading) (y.rtype, y.reading)

instance : DecidableRel rdLE :=
  fun x y => by unfold rdLE; infer_instance

/-- `if reading_data['romaji']:` → full reading template, otherwise the
no-romaji variant (glossary_generator.py:120-124); Python truthiness
makes both `None` and the empty string take the fallback. -/
def renderReading (rd : ReadingData) : String :=
  match rd.romaji with
  | some r => if r = "" then kanji_reading_no_romaji_t rd.rtype rd.reading
              else kanji_reading_t rd.rtype rd.reading r
  | none => kanji_reading_no_romaji_t rd.rtype rd.reading

/-- `_process_kanji_character` (glossary_generator.py:109-138), returning
the entry appended to `kanji_entries`, or `none` when the source returns
without appending (null/falsy info, or no `meanings` key).  The
`if reading_results:` guard (line 118) is the identity here because
joining the empty sorted list already yields `""`.  Sorting models
Python's stable `sorted`: records with equal keys produced under a fixed
lookup mapping are identical, so every stable order of the multiset is
this one. -/
def processKanjiCharacter (cfg : GenConfig) (char : Char)
    (kanji_info : Option KanjiInfo) (reading_results : List ReadingData) :
    Option String :=
  match kanji_info with
  | none => none
  | some info =>
    match info.meanings with
    | none => none
    | some ms =>
      some (kanji_entry_t (String.singleton char)
        (String.join ((List.insertionSort rdLE reading_results).map renderReading))
        (if cfg.include_kanji_meanings && !ms.isEmpty
         then String.intercalate ", " ms else ""))

/-- One value of the `api_results` dict (glossary_generator.py:48, 55). -/
inductive ApiRes where
  | kana (romaji : Option String)
  | kanji (info : Option KanjiInfo)
deriving DecidableEq

/-- `api_results.get(char)` after the collection loops: kana lookups are
submitted for kana characters when either kana category is enabled
(glossary_generator.py:31-35), kanji lookups for kanji characters when
that category is enabled (lines 39-43); the dict is keyed by character
(each written once), so completion order is unobservable here.  `ro` and
`ko` are the fixed results of `get_romaji_for_text` / `get_kanji_info`. -/
def apiResult (cfg : GenConfig) (ro : String → Option String)
    (ko : Char → Option KanjiInfo) (c : Char) : Option ApiRes :=
  if (cfg.include_hiragana || cfg.include_katakana) &&
      (is_hiragana c || is_katakana c) then
    some (ApiRes.kana (ro (String.singleton c)))
  else if cfg.include_kanji && is_kanji c then
    some (ApiRes.kanji (ko c))
  else none

/-- The reading→romaji tasks submitted for one character
(glossary_generator.py:58-63): only for a kanji with truthy info and
`include_romaji` set; Kun readings first, then On readings.  A task is
`(kanji_char, reading, reading_type)`. -/
def readingTasksFor (cfg : GenConfig) (ko : Char → Option KanjiInfo)
    (c : Char) : List (Char × String × String) :=
  if cfg.include_kanji && is_kanji c && cfg.include_romaji then
    match ko c with
    | some info =>
        (info.kun_readings.map (fun r => (c, r, "Kun"))) ++
        (info.on_readings.map (fun r => (c, r, "On")))
    | none => []
  else []

/-- All reading tasks of one assembly, in submission order. -/
def readingTasksAll (cfg : GenConfig) (ko : Char → Option KanjiInfo)
    (chars : List Char) : List (Char × String × String) :=
  chars.flatMap (readingTasksFor cfg ko)

/-- `reading_results[c]` after the collection loop
(glossary_generator.py:66-78): the arrived tasks of this kanji in
arrival order, each completed with its romaji result. -/
def readingResultsOf (ro : String → Option String)
    (arrival : List (Char × String × String)) (c : Char) :
    List ReadingData :=
  (arrival.filter (fun t => t.1 == c)).map
    (fun t => ⟨t.2.1, t.2.2, ro t.2.1⟩)

/-- The three entry lists of `generate_glossary_data`
(glossary_generator.py:21-23). -/
structure EntryLists where
  hiragana_entries : List String
  katakana_entries : List String
  kanji_entries : List String
deriving DecidableEq

/-- `_process_kana_character` (glossary_generator.py:98-107). -/
def processKanaCharacter (cfg : GenConfig) (char : Char) (romaji : String)
    (acc : EntryLists) : EntryLists :=
  if is_hiragana char && cfg.include_hiragana then
    { acc with hiragana_entries :=
        acc.hiragana_entries ++ [kana_entry_t (String.singleton char) romaji] }
  else if is_katakana char && cfg.include_katakana then
    { acc with katakana_entries :=
        acc.katakana_entries ++ [kana_entry_t (String.singleton char) romaji] }
  else acc

/-- The body of the `for char in unique_chars` rendering loop
(glossary_generator.py:81-92): a kana result renders only when its
romaji is truthy; a kanji result only when its info is truthy, via
`_process_kanji_character`. -/
def glossEntryStep (cfg : GenConfig) (ro : String → Option String)
    (ko : Char → Option KanjiInfo) (rr : Char → List ReadingData)
    (acc : EntryLists) (c : Char) : EntryLists :=
  match apiResult cfg ro ko c with
  | none => acc
  | some (ApiRes.kana romaji) =>
      match romaji with
      | some r => if r = "" then acc else processKanaCharacter cfg c r acc
      | none => acc
  | some (ApiRes.kanji info) =>
      match info with
      | some i =>
          match processKanjiCharacter cfg c (some i) (rr c) with
          | some entry =>
              { acc with kanji_entries := acc.kanji_entries ++ [entry] }
          | none => acc
      | none => acc

def glossEntries (cfg : GenConfig) (ro : String → Option String)
    (ko : Char → Option KanjiInfo) (rr : Char → List ReadingData)
    (chars : List Char) : EntryLists :=
  chars.foldl (glossEntryStep cfg ro ko rr) ⟨[], [], []⟩

/-- `_build_final_glossary_html` (glossary_generator.py:140-166):
non-empty enabled sections concatenated in hiragana, katakana, kanji
order. -/
def buildFinalGlossaryHtml (cfg : GenConfig) (e : EntryLists) : String :=
  (if !e.hiragana_entries.isEmpty && cfg.include_hiragana then
      hiragana_section_t (String.join e.hiragana_entries) else "") ++
  (if !e.katakana_entries.isEmpty && cfg.include_katakana then
      katakana_section_t (String.join e.katakana_entries) else "") ++
  (if !e.kanji_entries.isEmpty && cfg.include_kanji then
      kanji_section_t (String.join e.kanji_entries) else "")

/-- `generate_glossary_data(text)` (glossary_generator.py:12-96),
parameterized by the arrival order of the reading-conversion futures —
the only place where the `as_completed` completion order of the
concurrent lookups feeds an order-sensitive accumulator (the per-kanji
append at lines 71-78). -/
def generateGlossaryDataArr (cfg : GenConfig) (ro : String → Option String)
    (ko : Char → Option KanjiInfo)
    (arrival : List (Char × String × String)) (text : List Char) : String :=
  buildFinalGlossaryHtml cfg
    (glossEntries cfg ro ko (readingResultsOf ro arrival)
      (extract_unique_japanese_chars text))

/-- `generate_glossary_data(text)` at the canonical (submission-order)
arrival. -/
def generateGlossaryData (cfg : GenConfig) (ro : String → Option String)
    (ko : Char → Option KanjiInfo) (text : List Char) : String :=
  generateGlossaryDataArr cfg ro ko
    (readingTasksAll cfg ko (extract_unique_japanese_chars text)) text

/-- The sort key of a completed reading task. -/
def keyOf (t : Char × String × String) : String × String :=
  (t.2.2, t.2.1)

/-- Build the completed record back from its key under the fixed lookup
mapping `ro`. -/
def mkRD (ro : String → Option String) (p : String × String) : ReadingData :=
  ⟨p.2, p.1, ro p.2⟩

end JGlossary

namespace JGlossary

theorem readingResultsOf_eq_map (ro : String → Option String)
    (arrival : List (Char × String × String)) (c : Char) :
    readingResultsOf ro arrival c =
      ((arrival.filter (fun t => t.1 == c)).map keyOf).map (mkRD ro) := by
  rw [readingResultsOf, List.map_map]
  rfl

theorem orderedInsert_map_mkRD (ro : String → Option String)
    (p : String × String) (l : List (String × String)) :
    List.orderedInsert rdLE (mkRD ro p) (l.map (mkRD ro)) =
      (List.orderedInsert keyLE p l).map (mkRD ro) := by
  induction l with
  | nil => rfl
  | cons q l ih =>
    simp only [List.map_cons, List.orderedInsert]
    by_cases h : keyLE p q
    · rw [if_pos h, if_pos (show rdLE (mkRD ro p) (mkRD ro q) from h)]
      simp [List.map_cons]
    · rw [if_neg h, if_neg (show ¬ rdLE (mkRD ro p) (mkRD ro q) from h), ih]
      simp [List.map_cons]

theorem insertionSort_map_mkRD (ro : String → Option String)
    (l : List (String × String)) :
    List.insertionSort rdLE (l.map (mkRD ro)) =
      (List.insertionSort keyLE l).map (mkRD ro) := by
  induction l with
  | nil => rfl
  | cons p l ih =>
    simp only [List.map_cons, List.insertionSort, ih,
      orderedInsert_map_mkRD]

theorem sort_keys_eq {l1 l2 : List (String × String)} (h : l1.Perm l2) :
    List.insertionSort keyLE l1 = List.insertionSort keyLE l2 :=
  List.eq_of_perm_of_sorted
    ((List.perm_insertionSort keyLE l1).trans
      (h.trans (List.perm_insertionSort keyLE l2).symm))
    (List.sorted_insertionSort keyLE l1)
    (List.sorted_insertionSort keyLE l2)

/-- Two arrival orders of the same reading-task multiset yield the same
sorted per-kanji record list — the sort in `_process_kanji_character`
cancels the `as_completed` arrival order. -/
theorem readingResults_sort_eq (ro : String → Option String)
    {a1 a2 : List (Char × String × String)} (h : a1.Perm a2) (c : Char) :
    List.insertionSort rdLE (readingResultsOf ro a1 c) =
      List.insertionSort rdLE (readingResultsOf ro a2 c) := by
  rw [readingResultsOf_eq_map, readingResultsOf_eq_map,
    insertionSort_map_mkRD, insertionSort_map_mkRD,
    sort_keys_eq ((h.filter (fun t => t.1 == c)).map keyOf)]

theorem processKanjiCharacter_congr (cfg : GenConfig) (c : Char)
    (ki : Option KanjiInfo) {l1 l2 : List ReadingData}
    (h : List.insertionSort rdLE l1 = List.insertionSort rdLE l2) :
    processKanjiCharacter cfg c ki l1 = processKanjiCharacter cfg c ki l2 := by
  unfold processKanjiCharacter
  rcases ki with _ | ⟨ku, onr, ms⟩
  · rfl
  · rcases ms with _ | ms
    · rfl
    · rw [h]

theorem glossEntryStep_congr (cfg : GenConfig) (ro : String → Option String)
    (ko : Char → Option KanjiInfo) {rr1 rr2 : Char → List ReadingData}
    (h : ∀ c, List.insertionSort rdLE (rr1 c) = List.insertionSort rdLE (rr2 c))
    (acc : EntryLists) (c : Char) :
    glossEntryStep cfg ro ko rr1 acc c = glossEntryStep cfg ro ko rr2 acc c := by
  rcases hA : apiResult cfg ro ko c with _ | res
  · simp [glossEntryStep, hA]
  · rcases res with r | info
    · simp [glossEntryStep, hA]
    · rcases info with _ | i
      · simp [glossEntryStep, hA]
      · simp only [glossEntryStep, hA]
        rw [processKanjiCharacter_congr cfg c (some i) (h c)]

theorem glossEntries_congr (cfg : GenConfig) (ro : String → Option String)
    (ko : Char → Option KanjiInfo) {rr1 rr2 : Char → List ReadingData}
    (h : ∀ c, List.insertionSort rdLE (rr1 c) = List.insertionSort rdLE (rr2 c)) :
    ∀ (chars : List Char) (acc : EntryLists),
      chars.foldl (glossEntryStep cfg ro ko rr1) acc =
        chars.foldl (glossEntryStep cfg ro ko rr2) acc := by
  intro chars
  induction chars with
  | nil => intro acc; rfl
  | cons c cs ih =>
    intro acc
    rw [List.foldl_cons, List.foldl_cons,
      glossEntryStep_congr cfg ro ko h acc c, ih]

/-- C4: with the lookup results fixed (fixed cache/API responses), the
assembled glossary string is independent of the completion order of the
concurrent lookups — any arrival order of the reading-conversion tasks
(the one order-sensitive collection; kana/kanji results land in a dict
keyed by character) produces the byte-identical output of the canonical
submission order.  Worker-pool size influences only that order, and
repeated calls of the pure model are trivially identical; entry order
comes from `extract_unique_japanese_chars` first-appearance order, over
which the rendering loop folds. -/
theorem generate_deterministic (cfg : GenConfig) (ro : String → Option String)
    (ko : Char → Option KanjiInfo) (text : List Char)
    (arrival : List (Char × String × String))
    (h : arrival.Perm (readingTasksAll cfg ko (extract_unique_japanese_chars text))) :
    generateGlossaryDataArr cfg ro ko arrival text =
      generateGlossaryData cfg ro ko text := by
  unfold generateGlossaryData generateGlossaryDataArr glossEntries
  congr 1
  exact glossEntries_congr cfg ro ko
    (fun c => readingResults_sort_eq ro h c)
    (extract_unique_japanese_chars text) ⟨[], [], []⟩

/-- Witness for C4: the two reading tasks of 水 arriving in reversed
order produce the same output as the canonical order. -/
theorem generate_deterministic_witness :
    generateGlossaryDataArr ⟨true, true, true, true, true⟩
      (fun s => some ("r" ++ s))
      (fun c => if c = '水' then some ⟨["みず"], ["スイ"], some ["water"]⟩ else none)
      [('水', "スイ", "On"), ('水', "みず", "Kun")] "水".toList =
    generateGlossaryData ⟨true, true, true, true, true⟩
      (fun s => some ("r" ++ s))
      (fun c => if c = '水' then some ⟨["みず"], ["スイ"], some ["water"]⟩ else none)
      "水".toList :=
  generate_deterministic ⟨true, true, true, true, true⟩
    (fun s => some ("r" ++ s))
    (fun c => if c = '水' then some ⟨["みず"], ["スイ"], some ["water"]⟩ else none)
    "水".toList [('水', "スイ", "On"), ('水', "みず", "Kun")] (by decide)

end JGlossary

namespace JGlossary

/-- C1 counterexample: text "あ" with every category enabled and a null
romanization result.  あ is extracted, its lookup is null, and the
generated glossary is empty — no entry is rendered for the kana,
contradicting the claim (the guard `result.get('romaji')` at
glossary_generator.py:86 drops it). -/
theorem kana_null_romaji_counterexample :
    generateGlossaryData ⟨true, true, true, true, true⟩ (fun _ => none)
      (fun _ => none) "あ".toList = "" ∧
    extract_unique_japanese_chars "あ".toList = ['あ'] ∧
    (fun _ => (none : Option String)) "あ" = none :=
  ⟨rfl, by decide, rfl⟩

/-- C1 (amended): the asymmetry is the reverse of the claim.  A kana
character whose romanization lookup returns null contributes no entry at
all — the rendering loop leaves every entry list unchanged
(glossary_generator.py:86) — while a kanji reading with null romaji does
render, via the `kanji_reading_no_romaji` template variant
(glossary_generator.py:121-124). -/
theorem kana_null_skipped_spec (cfg : GenConfig) (ro : String → Option String)
    (ko : Char → Option KanjiInfo) (rr : Char → List ReadingData)
    (acc : EntryLists) (c : Char)
    (hk : (is_hiragana c || is_katakana c) = true)
    (hn : ro (String.singleton c) = none) :
    glossEntryStep cfg ro ko rr acc c = acc ∧
    (∀ rd : ReadingData, rd.romaji = none →
      renderReading rd = kanji_reading_no_romaji_t rd.rtype rd.reading) := by
  constructor
  · have hkj : is_kanji c = false := kana_not_kanji c hk
    by_cases hinc : (cfg.include_hiragana || cfg.include_katakana) = true
    · simp [glossEntryStep, apiResult, hk, hinc, hn]
    · simp [glossEntryStep, apiResult, hkj,
        Bool.eq_false_iff.mpr hinc]
  · intro rd h
    simp [renderReading, h]

/-- Witness for C1's amended theorem at concrete inputs. -/
theorem kana_null_skipped_witness :
    glossEntryStep ⟨true, true, true, true, true⟩ (fun _ => none)
      (fun _ => none) (fun _ => []) ⟨[], [], []⟩ 'あ' = ⟨[], [], []⟩ ∧
    renderReading ⟨"かん", "Kun", none⟩ =
      kanji_reading_no_romaji_t "Kun" "かん" :=
  ⟨(kana_null_skipped_spec ⟨true, true, true, true, true⟩ (fun _ => none)
      (fun _ => none) (fun _ => []) ⟨[], [], []⟩ 'あ' (by decide) rfl).1,
   (kana_null_skipped_spec ⟨true, true, true, true, true⟩ (fun _ => none)
      (fun _ => none) (fun _ => []) ⟨[], [], []⟩ 'あ' (by decide) rfl).2
     ⟨"かん", "Kun", none⟩ rfl⟩

/-- C10: a kanji whose dictionary lookup succeeds (non-null info) but
whose info lacks the `meanings` key is silently omitted:
`_process_kanji_character` returns without appending anything
(glossary_generator.py:113-114), and the rendering loop leaves the entry
lists unchanged. -/
theorem kanji_no_meanings_spec (cfg : GenConfig) (ro : String → Option String)
    (ko : Char → Option KanjiInfo) (rr : Char → List ReadingData)
    (acc : EntryLists) (c : Char) (info : KanjiInfo)
    (hko : ko c = some info) (hm : info.meanings = none)
    (hk : is_kanji c = true) (hik : cfg.include_kanji = true) :
    processKanjiCharacter cfg c (some info) (rr c) = none ∧
    glossEntryStep cfg ro ko rr acc c = acc := by
  have h1 : processKanjiCharacter cfg c (some info) (rr c) = none := by
    simp [processKanjiCharacter, hm]
  refine ⟨h1, ?_⟩
  obtain ⟨hh, hkt⟩ := kanji_not_kana c hk
  simp [glossEntryStep, apiResult, hh, hkt, hik, hk, hko, h1]

/-- Witness for C10 at concrete inputs. -/
theorem kanji_no_meanings_witness :
    processKanjiCharacter ⟨true, true, true, true, true⟩ '水'
      (some ⟨["みず"], ["スイ"], none⟩) [] = none ∧
    glossEntryStep ⟨true, true, true, true, true⟩ (fun _ => none)
      (fun _ => some ⟨["みず"], ["スイ"], none⟩) (fun _ => [])
      ⟨[], [], []⟩ '水' = ⟨[], [], []⟩ :=
  kanji_no_meanings_spec ⟨true, true, true, true, true⟩ (fun _ => none)
    (fun _ => some ⟨["みず"], ["スイ"], none⟩) (fun _ => []) ⟨[], [], []⟩
    '水' ⟨["みず"], ["スイ"], none⟩ rfl rfl (by decide) rfl

end JGlossary
